import Mathlib

/-!
Verification of the wega-catalog-api enrichment crawler against its
natural-language specification.

Shallow embedding conventions:
* Go strings are embedded as `List Char`; the byte-level operations of the
  `strings` package become list operations.
* Machine integers are embedded as `Nat`/`Int` (no overflow is reachable in
  the embedded fragments).
* Timestamps are `Nat` (minutes for the failure repository, seconds for the
  HTTP retry loop), matching the units the code computes with.
* Fallible Go functions returning `(T, error)` are embedded as `Option`
  or `Except`-like inductives.
* Interface collaborators (database, HTTP, LLM) are embedded as explicit
  oracle inputs, and outbound calls are collected in an effect trace.
-/

namespace Wega

/-- Embedding of a Go string literal as its list of characters. -/
def str (s : String) : List Char := s.data

/-- ASCII lower-casing of a single character.  `strings.ToLower` is
Unicode-aware; every string the embedded call sites handle is treated
byte-wise, and non-ASCII bytes are left unchanged, exactly as Go does for
characters without a lowercase mapping. -/
def lowerChar (c : Char) : Char :=
  if 'A' ≤ c ∧ c ≤ 'Z' then Char.ofNat (c.toNat + 32) else c

/-- Embedding of `strings.ToLower`. -/
def goToLower (s : List Char) : List Char := s.map lowerChar

/-- ASCII upper-casing of a single character (for `strings.Title`). -/
def upperChar (c : Char) : Char :=
  if 'a' ≤ c ∧ c ≤ 'z' then Char.ofNat (c.toNat - 32) else c

/-- Whether `s` starts with `sub` (Go `strings.HasPrefix`). -/
def startsWith : List Char → List Char → Bool
  | _, [] => true
  | [], _ :: _ => false
  | c :: s, d :: t => c == d && startsWith s t

/-- Embedding of `strings.Contains`: does `sub` occur contiguously in `s`? -/
def goContains : List Char → List Char → Bool
  | [], sub => startsWith [] sub
  | c :: rest, sub => startsWith (c :: rest) sub || goContains rest sub

/-- The token `tok` occurs contiguously inside `s`. -/
def Appears (tok s : List Char) : Prop := ∃ l r, s = l ++ tok ++ r

/-- Whitespace characters recognised by `strings.Fields` / `strings.TrimSpace`
(ASCII subset; the embedded inputs contain no exotic Unicode spaces). -/
def isSpaceChar (c : Char) : Bool :=
  c == ' ' || c == '\t' || c == '\n' || c == '\r'

/-- Accumulator-based splitter behind `goFields`. -/
def fieldsAux : List Char → List Char → List (List Char)
  | [], acc => if acc.isEmpty then [] else [acc.reverse]
  | c :: rest, acc =>
    if isSpaceChar c then
      if acc.isEmpty then fieldsAux rest []
      else acc.reverse :: fieldsAux rest []
    else fieldsAux rest (c :: acc)

/-- Embedding of `strings.Fields`: split around runs of whitespace. -/
def goFields (s : List Char) : List (List Char) := fieldsAux s []

/-- Embedding of `strings.TrimSpace`. -/
def goTrimSpace (s : List Char) : List Char :=
  ((s.dropWhile isSpaceChar).reverse.dropWhile isSpaceChar).reverse

/-- Embedding of `strings.Join` (`goJoin sep l` interleaves `sep`). -/
def goJoin (sep : List Char) : List (List Char) → List Char
  | [] => []
  | [s] => s
  | s :: t :: rest => s ++ sep ++ goJoin sep (t :: rest)

/-- Worker of `unique` from motul_adapter.go: `seen` is the map of strings
already emitted. -/
def uniqueAux : List (List Char) → List (List Char) → List (List Char)
  | [], _ => []
  | s :: rest, seen =>
    if s ∈ seen then uniqueAux rest seen
    else s :: uniqueAux rest (s :: seen)

/-- Embedding of `unique` from motul_adapter.go: first occurrences, in order. -/
def unique (l : List (List Char)) : List (List Char) := uniqueAux l []

/-! ### Failure repository (`ScraperFalhaRepo`, SCRAPER_FALHAS table) -/

/-- A row of the `SCRAPER_FALHAS` table.  Timestamps are minutes since an
arbitrary epoch (the code computes next-retry offsets in `time.Minute`
units). -/
structure FailureRecord where
  codigoAplicacao : Int
  tipoErro : List Char
  mensagemErro : List Char
  tentativas : Nat
  ultimaTentativa : Nat
  proximaTentativa : Option Nat
  resolvido : Bool
  resolvidoEm : Option Nat
  criadoEm : Nat
deriving DecidableEq, Repr

/-- Next-retry timestamp computed inside `ScraperFalhaRepo.Upsert` from the
error kind (the Go `switch` over `model.ErroTipo…` constants; offsets in
minutes). -/
def upsertProximaTentativa (now : Nat) (tipoErro : List Char) : Option Nat :=
  if tipoErro = str "rate_limit" then some (now + 1)
  else if tipoErro = str "rede" then some (now + 5)
  else if tipoErro = str "modelo_nao_encontrado" then none
  else some (now + 30)

/-- The `SCRAPER_FALHAS` table, keyed on the unique vehicle id. -/
def FailureTable := Int → Option FailureRecord

/-- Embedding of `ScraperFalhaRepo.Upsert`: the INSERT path materialises the
schema defaults (`Tentativas` 1, `Resolvido` FALSE, `ResolvidoEm` NULL,
`CriadoEm` NOW()); the ON CONFLICT path increments `Tentativas` and resets
`Resolvido`/`ResolvidoEm`. -/
def scraperFalhaUpsert (table : FailureTable) (now : Nat) (codigoAplicacao : Int)
    (tipoErro mensagemErro : List Char) : FailureTable :=
  let proxima := upsertProximaTentativa now tipoErro
  fun i =>
    if i = codigoAplicacao then
      match table codigoAplicacao with
      | none => some
          { codigoAplicacao := codigoAplicacao
            tipoErro := tipoErro
            mensagemErro := mensagemErro
            tentativas := 1
            ultimaTentativa := now
            proximaTentativa := proxima
            resolvido := false
            resolvidoEm := none
            criadoEm := now }
      | some old => some
          { codigoAplicacao := codigoAplicacao
            tipoErro := tipoErro
            mensagemErro := mensagemErro
            tentativas := old.tentativas + 1
            ultimaTentativa := now
            proximaTentativa := proxima
            resolvido := false
            resolvidoEm := none
            criadoEm := old.criadoEm }
    else table i

/-- Row predicate of `ScraperFalhaRepo.GetPendingRetries`:
`"Resolvido" = FALSE AND ("ProximaTentativa" IS NULL OR
"ProximaTentativa" <= NOW())`. -/
def pendingRetryFilter (now : Nat) (r : FailureRecord) : Bool :=
  !r.resolvido &&
    (match r.proximaTentativa with
     | none => true
     | some t => decide (t ≤ now))

/-- Embedding of `ScraperFalhaRepo.GetPendingRetries` over the table rows.
The SQL `ORDER BY` only permutes the filtered rows and is omitted; the
claims below only concern which rows can be returned, and are evaluated on
inputs where the ordering is immaterial. -/
def getPendingRetries (now limit : Nat) (rows : List FailureRecord) :
    List FailureRecord :=
  (rows.filter (pendingRetryFilter now)).take limit

/-- The concrete unresolved failure row with NULL next-attempt that
`Upsert` produces for kind `modelo_nao_encontrado` at time 50. -/
def modelNotFoundRow : FailureRecord :=
  { codigoAplicacao := 42
    tipoErro := str "modelo_nao_encontrado"
    mensagemErro := str "model not found"
    tentativas := 1
    ultimaTentativa := 50
    proximaTentativa := none
    resolvido := false
    resolvidoEm := none
    criadoEm := 50 }

/-! ### Catalog persistence (`CatalogLoader.saveToFile`) -/

/-- File-system operations the loader can issue. -/
inductive FsOp where
  | write (path : List Char) (data : List Char)
  | rename (src : List Char) (dst : List Char)
deriving DecidableEq, Repr

/-- File-system trace of `CatalogLoader.saveToFile`: a single `os.WriteFile`
of the marshalled catalog.  `marshal` stands for `json.MarshalIndent`
(total on the embedded catalog values; the error branch is unreachable for
this struct). -/
def saveToFileTrace {α : Type} (marshal : α → List Char) (filename : List Char)
    (catalog : α) : List FsOp :=
  [FsOp.write filename (marshal catalog)]

/-- Modelled from the spec claim: persistence writes a temporary file and
then renames it onto the target path. -/
def WriteTempThenRename (trace : List FsOp) : Prop :=
  ∃ tmp data target, tmp ≠ target ∧
    trace = [FsOp.write tmp data, FsOp.rename tmp target]

/-! ### Smart matcher type resolution (`SmartMatcher.FindMatch`, steps 3-6) -/

/-- A catalog vehicle type (id and display name suffice here). -/
structure CatalogVehicleType where
  id : List Char
  name : List Char
deriving DecidableEq, Repr

/-- The result record of `FindMatch` (brand/model strings omitted: the
claim concerns the chosen type and confidence). -/
structure SmartMatchResult where
  vehicleType : CatalogVehicleType
  confidence : ℚ
  matchMethod : List Char
deriving DecidableEq, Repr

/-- Embedding of `isCommonWord` from smart_matcher.go. -/
def isCommonWord (w : List Char) : Bool :=
  w == str "de" || w == str "do" || w == str "da" || w == str "o"
    || w == str "a" || w == str "e" || w == str "em" || w == str "com"
    || w == str "para" || w == str "cv" || w == str "hp" || w == str "v"

/-- The match counter of `containsAllParts`: significant tokens of the
(lowered) source found in the lowered target. -/
def significantMatches (targetLower : List Char) :
    List (List Char) → Nat
  | [] => 0
  | p :: rest =>
    (if p.length < 2 ∨ isCommonWord p then 0
     else if goContains targetLower p then 1 else 0)
      + significantMatches targetLower rest

/-- Embedding of `containsAllParts`: at least 2 significant tokens of
`source` occur in `target`. -/
def containsAllParts (target source : List Char) : Bool :=
  decide (2 ≤ significantMatches (goToLower target) (goFields (goToLower source)))

/-- Outcome of the Disambiguator call `groq.NormalizeVehicle` inside
`FindMatch`. -/
inductive LlmOutcome where
  | err
  | ok (name : List Char)
deriving DecidableEq, Repr

/-- Embedding of steps 3-6 of `SmartMatcher.FindMatch` once brand and
model resolved: `types` is the catalog's type list for them, `llm` the
Disambiguator oracle.  Note the significant-parts branch returns
`types[0]` — the loop variable `vt` that satisfied `containsAllParts` is
not the value returned. -/
def resolveType (types : List CatalogVehicleType)
    (wegaDescription : List Char) (llm : LlmOutcome) :
    Option SmartMatchResult :=
  match types with
  | [] => none
  | [t] => some { vehicleType := t, confidence := 1, matchMethod := str "single" }
  | t0 :: t1 :: rest =>
    if (t0 :: t1 :: rest).any
        (fun vt => containsAllParts vt.name wegaDescription) then
      some { vehicleType := t0, confidence := 19 / 20,
             matchMethod := str "exact" }
    else
      match llm with
      | LlmOutcome.err =>
        some { vehicleType := t0, confidence := 1 / 2,
               matchMethod := str "fallback" }
      | LlmOutcome.ok matchedName =>
        match (t0 :: t1 :: rest).find? (fun vt => vt.name == matchedName) with
        | some vt =>
          some { vehicleType := vt, confidence := 17 / 20,
                 matchMethod := str "llm" }
        | none =>
          some { vehicleType := t0, confidence := 1 / 2,
                 matchMethod := str "fallback" }

/-- First candidate type of the C1 failing input (its name does not match
the description). -/
def typeA : CatalogVehicleType := { id := str "1", name := str "gol 1.0 8v" }

/-- Second candidate type of the C1 failing input (its name matches ≥ 2
significant description tokens). -/
def typeB : CatalogVehicleType :=
  { id := str "2", name := str "gol 1.6 16v power" }

/-! ### Disambiguator single-match parsing and fallback (`GroqClient`) -/

/-- The turbo keyword list of `GroqClient.smartFallback`. -/
def turboKeywordsGroq : List (List Char) :=
  [str "turbo", str "tsi", str "tfsi", str "t200", str "thp",
   str "130cv", str "130 cv", str "125cv", str "125 cv"]

/-- Any of the (lowercase) keywords occurs in the lowered string. -/
def containsAnyKeyword (sLower : List Char) (kws : List (List Char)) : Bool :=
  kws.any (fun k => goContains sLower k)

/-- The turbo test `smartFallback` applies to the target and to each
candidate. -/
def isTurboGroq (s : List Char) : Bool :=
  containsAnyKeyword (goToLower s) turboKeywordsGroq

/-- The candidate scan of `smartFallback`: first option whose turbo status
equals the target's. -/
def findTurboConsistent (wegaIsTurbo : Bool) :
    List (List Char) → Option (List Char)
  | [] => none
  | o :: rest =>
    if isTurboGroq o = wegaIsTurbo then some o
    else findTurboConsistent wegaIsTurbo rest

/-- Embedding of `GroqClient.smartFallback` (Go indexes `motulOptions[0]`
on a list its callers guarantee non-empty; `headD []` stands for that
access). -/
def smartFallback (wegaVehicle : List Char) (opts : List (List Char)) :
    List Char :=
  match findTurboConsistent (isTurboGroq wegaVehicle) opts with
  | some o => o
  | none => opts.headD []

/-- First character of the response lying in '1'..'9', as a digit; 0 when
none occurs (the Go scan then leaves `optionNum` at zero). -/
def firstDigit19 : List Char → Nat
  | [] => 0
  | c :: rest =>
    if '1' ≤ c ∧ c ≤ '9' then c.toNat - '0'.toNat else firstDigit19 rest

/-- Embedding of the decision tail of `GroqClient.NormalizeVehicle` once a
provider response was obtained (prompt construction, rate limiting and the
HTTP exchange are upstream of this fragment): empty candidate list errors,
a single candidate short-circuits, a missing or out-of-range index falls
back to `smartFallback`, otherwise the indexed candidate is returned. -/
def normalizeVehicleChoice (response wegaVehicle : List Char)
    (opts : List (List Char)) : Option (List Char) :=
  if opts.isEmpty then none
  else if opts.length = 1 then some (opts.headD [])
  else
    let n := firstDigit19 (goTrimSpace response)
    if n = 0 then some (smartFallback wegaVehicle opts)
    else if opts.length < n then some (smartFallback wegaVehicle opts)
    else opts.get? (n - 1)

/-- Turbo markers as enumerated by the claim. -/
def turboKeywordsClaim : List (List Char) :=
  [str "turbo", str "tsi", str "tfsi", str "t200", str "thp"]

/-- Diesel markers as enumerated by the claim. -/
def dieselKeywordsClaim : List (List Char) :=
  [str "diesel", str "tdi", str "cdti", str "hdi", str "dci", str "jtd",
   str "d4d"]

/-- Modelled from the claim: a candidate is category-consistent with the
target when its turbo-marker presence and its diesel-marker presence both
agree with the target's. -/
def claimCategoryConsistent (target cand : List Char) : Bool :=
  (containsAnyKeyword (goToLower cand) turboKeywordsClaim
      == containsAnyKeyword (goToLower target) turboKeywordsClaim)
    && (containsAnyKeyword (goToLower cand) dieselKeywordsClaim
      == containsAnyKeyword (goToLower target) dieselKeywordsClaim)

/-! ### Spec parser (`MotulAdapter.GetSpecifications`) -/

/-- A capacity entry of a Motul component (`Capacities[].Label`). -/
structure MotulCapacity where
  label : List Char
deriving DecidableEq, Repr

/-- A recommended product (`Products[].Name`). -/
structure MotulProduct where
  name : List Char
deriving DecidableEq, Repr

/-- A recommendation block; the `Conditions` sub-struct is never read by
the adapter and is omitted. -/
structure MotulRecommendation where
  products : List MotulProduct
deriving DecidableEq, Repr

/-- A vehicle component of the specifications response; the adapter reads
`Category.Name`, the capacity labels and the recommended products. -/
structure MotulComponent where
  categoryName : List Char
  capacities : List MotulCapacity
  recommendations : List MotulRecommendation
deriving DecidableEq, Repr

/-- The scraper-side `OilSpecification` record. -/
structure OilSpecification where
  tipoFluido : List Char
  viscosidade : List Char
  capacidade : List Char
  norma : List Char
  recomendacao : List Char
deriving DecidableEq, Repr

/-- The two token tests of `extractViscosity`: length ≥ 4 and containing
"W-", or length ≥ 3, containing "W" and not starting with a lowercase
form of "w". -/
def viscosityHeuristic (part : List Char) : Bool :=
  (decide (4 ≤ part.length) && goContains part (str "W-"))
    || (decide (3 ≤ part.length) && goContains part (str "W")
        && !(startsWith (goToLower part) (str "w")))

/-- First whitespace-token of the loop in `extractViscosity` passing the
heuristic; `[]` when none does. -/
def firstViscosityPart : List (List Char) → List Char
  | [] => []
  | p :: rest => if viscosityHeuristic p then p else firstViscosityPart rest

/-- Embedding of `extractViscosity` from motul_adapter.go. -/
def extractViscosity (name : List Char) : List Char :=
  firstViscosityPart (goFields name)

/-- Embedding of `MotulAdapter.parseFluidType` (the fixed lookup table,
defaulting to the input). -/
def parseFluidType (componentType : List Char) : List Char :=
  if componentType = str "ENGINE_OIL" then str "Óleo do Motor"
  else if componentType = str "TRANSMISSION_OIL" then str "Óleo de Transmissão"
  else if componentType = str "BRAKE_FLUID" then str "Fluido de Freio"
  else if componentType = str "COOLANT" then str "Líquido de Arrefecimento"
  else if componentType = str "POWER_STEERING" then str "Direção Hidráulica"
  else if componentType = str "DIFFERENTIAL" then str "Diferencial"
  else componentType

/-- The non-empty product names collected by the nested recommendation /
product loops of `GetSpecifications`. -/
def componentProductNames (c : MotulComponent) : List (List Char) :=
  (c.recommendations.flatMap (fun r => r.products.map (fun p => p.name))).filter
    (fun n => !n.isEmpty)

/-- The non-empty viscosities extracted from those product names. -/
def componentViscosities (c : MotulComponent) : List (List Char) :=
  (componentProductNames c).filterMap (fun n =>
    if (extractViscosity n).isEmpty then none else some (extractViscosity n))

/-- The capacity field: non-empty labels suffixed with " L" and joined
(assembled only when the capacities array is non-empty). -/
def componentCapacityField (c : MotulComponent) : List Char :=
  if c.capacities.isEmpty then []
  else goJoin (str ", ")
    (c.capacities.filterMap (fun cap =>
      if cap.label.isEmpty then none else some (cap.label ++ str " L")))

/-- The specification `GetSpecifications` assembles for one component. -/
def buildSpec (c : MotulComponent) : OilSpecification :=
  { tipoFluido := parseFluidType c.categoryName
    viscosidade := if c.recommendations.isEmpty then []
      else goJoin (str ", ") (unique (componentViscosities c))
    capacidade := componentCapacityField c
    norma := []
    recomendacao := if c.recommendations.isEmpty then []
      else goJoin (str ", ") (unique (componentProductNames c)) }

/-- The guard "only add if we have useful data". -/
def emitSpec (s : OilSpecification) : Bool :=
  !s.tipoFluido.isEmpty &&
    (!s.viscosidade.isEmpty || !s.capacidade.isEmpty || !s.recomendacao.isEmpty)

/-- Embedding of `MotulAdapter.GetSpecifications` over the response
components (the HTTP fetch is the caller's oracle). -/
def getSpecifications (components : List MotulComponent) : List OilSpecification :=
  components.filterMap (fun c =>
    if emitSpec (buildSpec c) then some (buildSpec c) else none)

/-- ASCII digit test. -/
def isDigitChar (c : Char) : Bool := '0' ≤ c && c ≤ '9'

/-- Modelled from the spec: a token fully matching the viscosity regular
expression `\d+W-?\d+`. -/
def matchesViscosityPattern (t : List Char) : Bool :=
  let p1 := t.span (fun c => isDigitChar c)
  match p1.2 with
  | 'W' :: rest =>
    let rest2 := match rest with
      | '-' :: r => r
      | r => r
    !p1.1.isEmpty && !rest2.isEmpty && rest2.all (fun c => isDigitChar c)
  | _ => false

/-- Counterexample component: one engine-oil recommendation whose product
name has a misleading first token. -/
def powerComponent : MotulComponent :=
  { categoryName := str "ENGINE_OIL"
    capacities := []
    recommendations := [{ products := [{ name := str "POWER 5W-30" }] }] }

/-- Witness component: a well-behaved engine-oil recommendation. -/
def motulComponent : MotulComponent :=
  { categoryName := str "ENGINE_OIL"
    capacities := [{ label := str "4.3" }]
    recommendations := [{ products := [{ name := str "MOTUL 5W-30" }] }] }

/-! ### Advisor HTTP client retry loop (`MotulClient.fetchWithRetry`) -/

/-- Outcome of one HTTP attempt: a transport error from `httpClient.Do`,
or a response carrying the given status code. -/
inductive AttemptOutcome where
  | transportError
  | status (code : Nat)
deriving DecidableEq, Repr

/-- Errors `fetchWithRetry` can surface to its caller. -/
inductive FetchError where
  | transportFailed (attempts : Nat)
  | httpStatus (code : Nat)
  | maxRetriesExceeded
deriving DecidableEq, Repr

/-- Result of the retry loop: final outcome (`none` meaning the body was
returned), number of attempts performed, and the seconds slept between
consecutive attempts. -/
structure FetchTrace where
  result : Option FetchError
  attempts : Nat
  sleeps : List Nat
deriving DecidableEq, Repr

/-- Whether the loop retries after this outcome (Go: a transport error, or
`resp.StatusCode == 429 || resp.StatusCode >= 500`; a 200 response returns
before the retry test). -/
def isRetryable : AttemptOutcome → Bool
  | AttemptOutcome.transportError => true
  | AttemptOutcome.status code =>
    if code = 200 then false else decide (code = 429 ∨ 500 ≤ code)

/-- `RetryConfig.MaxRetries` of the default Motul client configuration. -/
def maxRetries : Nat := 5

/-- Loop body of `fetchWithRetry`: `fuel` bounds the remaining iterations
(the Go loop runs `attempt` from 0 through `maxRetries` inclusive),
`attempt` is the current attempt index, `backoff` the current sleep in
seconds (initial 1, doubled and capped at 30 after each sleep).  The
rate-limiter wait preceding each attempt is orthogonal to the retry policy
and omitted here. -/
def fetchLoop (outcomes : Nat → AttemptOutcome) :
    Nat → Nat → Nat → FetchTrace
  | 0, _, _ =>
    { result := some FetchError.maxRetriesExceeded, attempts := 0, sleeps := [] }
  | fuel + 1, attempt, backoff =>
    match outcomes attempt with
    | AttemptOutcome.transportError =>
      if attempt < maxRetries then
        let rest := fetchLoop outcomes fuel (attempt + 1) (min (backoff * 2) 30)
        { result := rest.result, attempts := rest.attempts + 1,
          sleeps := backoff :: rest.sleeps }
      else
        { result := some (FetchError.transportFailed (attempt + 1)),
          attempts := 1, sleeps := [] }
    | AttemptOutcome.status code =>
      if code = 200 then
        { result := none, attempts := 1, sleeps := [] }
      else if (code = 429 ∨ 500 ≤ code) ∧ attempt < maxRetries then
        let rest := fetchLoop outcomes fuel (attempt + 1) (min (backoff * 2) 30)
        { result := rest.result, attempts := rest.attempts + 1,
          sleeps := backoff :: rest.sleeps }
      else
        { result := some (FetchError.httpStatus code), attempts := 1, sleeps := [] }

/-- Embedding of `MotulClient.fetchWithRetry` under the default retry
configuration (MaxRetries 5, InitialBackoff 1 s, MaxBackoff 30 s,
Multiplier 2). -/
def fetchWithRetry (outcomes : Nat → AttemptOutcome) : FetchTrace :=
  fetchLoop outcomes (maxRetries + 1) 0 1

/-- The deterministic backoff sequence: `n` sleeps starting at `b` seconds,
doubling and capping at 30 after each. -/
def backoffSeq (b : Nat) : Nat → List Nat
  | 0 => []
  | n + 1 => b :: backoffSeq (min (b * 2) 30) n

/-! ### Rate limiter (`client.RateLimiter`) -/

/-- Fate of one generator tick. -/
inductive TokenFate where
  | delivered
  | discarded
deriving DecidableEq, Repr

/-- The generator goroutine sends each tick into the unbuffered `requests`
channel through a `select` with a `default` case: the token is delivered
only when a receiver is already waiting at the rendezvous, otherwise it is
dropped. -/
def tickHandoff (receiverWaiting : Bool) : TokenFate :=
  if receiverWaiting then TokenFate.delivered else TokenFate.discarded

/-- Possible completions of `RateLimiter.Wait`. -/
inductive WaitBehavior where
  | blocks
  | tokenOk
  | cancelErr
  | raceNondet
deriving DecidableEq, Repr

/-- Go `select` semantics of `Wait`: the receive case (`<-rl.requests`) is
ready when a sender is at the rendezvous or when the channel has been
closed by `Stop` (receiving from a closed channel yields the zero value
immediately and `Wait` returns nil); the `ctx.Done()` case is ready when
the context is cancelled (`Wait` returns `ctx.Err()`); with both ready Go
picks a case at random; with neither, `Wait` blocks. -/
def waitBehavior (channelClosed cancelled senderReady : Bool) : WaitBehavior :=
  let recvReady := channelClosed || senderReady
  if recvReady && cancelled then WaitBehavior.raceNondet
  else if recvReady then WaitBehavior.tokenOk
  else if cancelled then WaitBehavior.cancelErr
  else WaitBehavior.blocks

/-! ### Scraper service pipeline (`ScraperService.processVehicle`) -/

/-- Embedding of `commercialVehiclePatterns` from service.go. -/
def commercialVehiclePatterns : List (List Char) :=
  [str "cargo", str "constellation", str "worker", str "delivery",
   str "fh ", str "fh-", str "fm ", str "fm-", str "fmx", str "vm ",
   str "vm-", str "nh12", str "nh ", str "edc",
   str "axor", str "atego", str "actros", str "arocs",
   str "stralis", str "trakker", str "eurocargo",
   str "serie p", str "serie g", str "serie r", str "serie s",
   str "of-", str "o-", str "volare", str "busscar", str "mascarello",
   str "marcopolo", str "neobus", str "caio", str "comil",
   str "trator", str "colheitadeira", str "retroescavadeira",
   str "mf ", str "massey", str "new holland", str "case ih",
   str "john deere", str "valtra", str "ls tractor",
   str "escavadeira", str "pa carregadeira", str "motoniveladora",
   str "rolo compactador", str "guindaste", str "empilhadeira",
   str "compressor", str "gerador",
   str "9200", str "9800", str "4700", str "8600",
   str "series ", str "hr ", str "hd ",
   str "f-350", str "f-4000", str "f-14000", str "f350", str "f4000",
   str "f14000", str "fb4000", str "fb-4000", str "f 4000", str "fb 4000",
   str "d-20", str "d20", str "d-40", str "d40", str "d-60", str "d60",
   str "c-10", str "c10", str "c-60", str "c60", str "c-15", str "c15",
   str "5.140", str "6.80", str "6.90", str "7.90", str "7.100",
   str "7.110", str "7.120",
   str "8.120", str "8.140", str "8.150", str "8.160",
   str "9.150", str "9.170", str "10.160", str "11.130", str "11.180",
   str "12.140", str "13.150", str "13.180",
   str "15.170", str "15.180", str "15.190", str "16.200", str "17.180",
   str "17.190", str "17.210", str "17.220", str "17.230", str "17.250",
   str "17.280", str "17.310",
   str "18.310", str "19.320", str "19.330", str "19.360", str "19.390",
   str "19.420",
   str "23.210", str "23.220", str "23.230", str "23.250", str "23.310",
   str "24.250", str "24.280", str "24.310",
   str "25.320", str "25.360", str "25.370", str "25.390", str "25.420",
   str "26.260", str "26.280", str "26.310",
   str "31.260", str "31.280", str "31.310", str "31.320", str "31.330",
   str "31.370", str "31.390", str "31.420",
   str "furgovan", str "kombi furgao",
   str "6000", str "7000", str "8000", str "8500", str "9200",
   str "10000", str "13000", str "14000"]

/-- Embedding of `commercialBrands` from service.go. -/
def commercialBrands : List (List Char) :=
  [str "scania", str "daf", str "man", str "iveco",
   str "international", str "navistar", str "freightliner",
   str "kenworth", str "peterbilt",
   str "hino", str "isuzu trucks", str "ud trucks", str "fuso",
   str "atlas copco", str "caterpillar", str "komatsu", str "jcb",
   str "bobcat",
   str "case", str "new holland", str "massey ferguson",
   str "john deere", str "valtra",
   str "agrale",
   str "cummins", str "perkins", str "deutz",
   str "yamaha", str "honda motos", str "suzuki motos", str "kawasaki",
   str "harley",
   str "bmw motorrad", str "ducati", str "triumph", str "ktm"]

/-- Embedding of `ScraperService.isCommercialVehicle`. -/
def isCommercialVehicle (brand modelName description : List Char) : Bool :=
  let brandLower := goToLower brand
  let modelLower := goToLower modelName
  let descLower := goToLower description
  commercialBrands.any (fun cb => goContains brandLower cb)
    || commercialVehiclePatterns.any
        (fun p => goContains (modelLower ++ str " " ++ descLower) p)

/-- Position of the first occurrence of `sub` in the suffixes of `s`
(worker of `goIndexOf`). -/
def goIndexAux : List Char → List Char → Option Nat
  | [], sub => if startsWith [] sub then some 0 else none
  | c :: rest, sub =>
    if startsWith (c :: rest) sub then some 0
    else (goIndexAux rest sub).map (· + 1)

/-- Embedding of `strings.Index` (`none` standing for -1); character
positions coincide with Go's byte positions on the ASCII separators
used. -/
def goIndexOf (s sub : List Char) : Option Nat := goIndexAux s sub

/-- The `if idx := strings.Index(s, sep); idx > 0 { s = s[:idx] }` step of
`parseVehicleDescription`. -/
def cutAt (s sep : List Char) : List Char :=
  match goIndexOf s sep with
  | some idx => if 0 < idx then s.take idx else s
  | none => s

/-- Numeric value of a digit character. -/
def digitVal (c : Char) : Nat := c.toNat - '0'.toNat

/-- `fmt.Sscanf("%d", w)` on a window starting with a digit: the value of
the maximal leading digit run. -/
def leadingNat : List Char → Nat → Nat
  | [], acc => acc
  | c :: rest, acc =>
    if isDigitChar c then leadingNat rest (acc * 10 + digitVal c) else acc

/-- The year scan of `parseVehicleDescription`: the first 4-character
window starting with a digit whose leading number lies in
[1990, 2030]; 0 when none does. -/
def scanYearAux : List Char → Nat
  | [] => 0
  | c :: rest =>
    if isDigitChar c = true ∧ 3 ≤ rest.length then
      let y := leadingNat ((c :: rest).take 4) 0
      if 1990 ≤ y ∧ y ≤ 2030 then y else scanYearAux rest
    else scanYearAux rest

/-- ASCII letter test (`strings.Title` word boundaries; the embedded
inputs are ASCII). -/
def isAsciiLetter (c : Char) : Bool :=
  ('a' ≤ c && c ≤ 'z') || ('A' ≤ c && c ≤ 'Z')

/-- Worker of `goTitle`: uppercase a letter that follows a non-letter. -/
def titleAux (prevLetter : Bool) : List Char → List Char
  | [] => []
  | c :: rest =>
    let isL := isAsciiLetter c
    (if isL && !prevLetter then upperChar c else c) :: titleAux isL rest

/-- Embedding of `strings.Title`. -/
def goTitle (s : List Char) : List Char := titleAux false s

/-- Embedding of `ScraperService.normalizeString`: the composed transform
chain NFD / strip-combining-marks / NFC is the opaque parameter
`deaccent` (identity on the ASCII inputs exercised below), followed by
`TrimSpace` and `Title(ToLower(·))`. -/
def normalizeStringSvc (deaccent : List Char → List Char) (s : List Char) :
    List Char :=
  goTitle (goToLower (goTrimSpace (deaccent s)))

/-- The scraper-era `model.Aplicacao` record. -/
structure Aplicacao where
  codigoAplicacao : Int
  marca : List Char
  descricaoAplicacao : List Char
  motor : List Char
  periodo : List Char
  ano : List Char
  fabricante : List Char
  modelo : List Char
deriving DecidableEq, Repr

/-- Embedding of `ScraperService.parseVehicleDescription`. -/
def parseVehicleDescription (deaccent : List Char → List Char)
    (v : Aplicacao) : Option (List Char × List Char × Nat) :=
  let brand0 := if v.fabricante.isEmpty then v.marca else v.fabricante
  let model0 := if v.modelo.isEmpty then v.descricaoAplicacao else v.modelo
  let model1 := cutAt model0 (str " - ")
  let model2 := cutAt model1 (str " /")
  let yearStr := if v.periodo.isEmpty then v.ano else v.periodo
  let year := if yearStr.isEmpty then 0 else scanYearAux yearStr
  if brand0.isEmpty || model2.isEmpty then none
  else some (normalizeStringSvc deaccent brand0,
             normalizeStringSvc deaccent model2, year)

/-- The `scraper.MotulVehicle` record returned by `SearchVehicle`. -/
structure MotulVehicleR where
  id : List Char
  brand : List Char
  modelName : List Char
  year : Nat
  description : List Char
  motorType : List Char
deriving DecidableEq, Repr

/-- Oracle outcome of `specRepo.ExistsForVehicle`. -/
inductive ExistsOutcome where
  | errCheck
  | specsFound
  | specsAbsent
deriving DecidableEq, Repr

/-- Oracle outcome of `motulClient.SearchVehicle`. -/
inductive SearchOutcome where
  | errMsg (msg : List Char)
  | noVehicle
  | found (mv : MotulVehicleR)
deriving DecidableEq, Repr

/-- Oracle outcome of `motulClient.GetSpecifications`. -/
inductive SpecsOutcome where
  | errMsg (msg : List Char)
  | ok (specs : List OilSpecification)
deriving DecidableEq, Repr

/-- External collaborators of one `processVehicle` call, as oracles:
which repositories are wired, the dry-run flag, and the responses the
call would observe. -/
structure Env where
  specRepoPresent : Bool
  falhaRepoPresent : Bool
  dryRun : Bool
  existsOutcome : ExistsOutcome
  searchOutcome : SearchOutcome
  specsOutcome : SpecsOutcome
  insertOk : Nat → Bool

/-- The `ProgressTracker` counters (the mutex is irrelevant to a single
sequential call). -/
structure Counters where
  processed : Nat
  success : Nat
  failed : Nat
  skipped : Nat
  exactMatch : Nat
  fuzzyMatch : Nat
  noMatch : Nat
  totalRequests : Nat
  currentVehicle : List Char
  lastError : List Char
deriving DecidableEq, Repr

/-- Outbound calls `processVehicle` can make. -/
inductive Effect where
  | checkExists (id : Int)
  | searchVehicle (brand modelName : List Char) (year : Nat)
  | getSpecs (typeId : List Char)
  | insertSpec (id : Int)
  | upsertFailure (id : Int)
  | markResolved (id : Int)
deriving DecidableEq, Repr

/-- Embedding of `ScraperService.isExactMatch`. -/
def isExactMatch (deaccent : List Char → List Char) (v : Aplicacao)
    (mv : MotulVehicleR) : Bool :=
  let w := normalizeStringSvc deaccent v.descricaoAplicacao
  let m := normalizeStringSvc deaccent mv.description
  goContains w m || goContains m w

/-- The tail of `processVehicle` after the commercial filter: duplicate
check, parse-error check, dry run, search, match classification, spec
fetch, persistence.  Returns the updated counters and the trace of
outbound calls. -/
def processRest (deaccent : List Char → List Char) (env : Env)
    (v : Aplicacao) (c : Counters)
    (parsed : Option (List Char × List Char × Nat)) :
    Counters × List Effect :=
  let e0 : List Effect :=
    if env.specRepoPresent then [Effect.checkExists v.codigoAplicacao] else []
  if env.specRepoPresent ∧ env.existsOutcome = ExistsOutcome.specsFound then
    ({ c with skipped := c.skipped + 1 }, e0)
  else
    match parsed with
    | none => ({ c with skipped := c.skipped + 1 }, e0)
    | some (brand, modelName, year) =>
      if env.dryRun then ({ c with success := c.success + 1 }, e0)
      else
        let c1 := { c with totalRequests := c.totalRequests + 1 }
        let e1 := e0 ++ [Effect.searchVehicle brand modelName year]
        match env.searchOutcome with
        | SearchOutcome.errMsg msg =>
          ({ c1 with failed := c1.failed + 1, lastError := msg },
           e1 ++ (if env.falhaRepoPresent
                  then [Effect.upsertFailure v.codigoAplicacao] else []))
        | SearchOutcome.noVehicle =>
          ({ c1 with noMatch := c1.noMatch + 1 }, e1)
        | SearchOutcome.found mv =>
          let c2 := if isExactMatch deaccent v mv
            then { c1 with exactMatch := c1.exactMatch + 1 }
            else { c1 with fuzzyMatch := c1.fuzzyMatch + 1 }
          let e2 := e1 ++ [Effect.getSpecs mv.id]
          match env.specsOutcome with
          | SpecsOutcome.errMsg _ =>
            ({ c2 with failed := c2.failed + 1,
                       lastError := str "specs_fetch_error" },
             e2 ++ (if env.falhaRepoPresent
                    then [Effect.upsertFailure v.codigoAplicacao] else []))
          | SpecsOutcome.ok specs =>
            if specs.isEmpty then
              ({ c2 with noMatch := c2.noMatch + 1 }, e2)
            else if env.specRepoPresent then
              let savedCount :=
                ((List.range specs.length).filter (fun i => env.insertOk i)).length
              ({ c2 with success := c2.success + 1 },
               e2 ++ specs.map (fun _ => Effect.insertSpec v.codigoAplicacao)
                  ++ (if 0 < savedCount ∧ env.falhaRepoPresent
                      then [Effect.markResolved v.codigoAplicacao] else []))
            else ({ c2 with success := c2.success + 1 }, e2)

/-- Embedding of `ScraperService.processVehicle` (service.go first
version, lines 385-551): set current vehicle, count processed, parse,
commercial filter, then the remaining pipeline. -/
def processVehicle (deaccent : List Char → List Char) (env : Env)
    (v : Aplicacao) (c : Counters) : Counters × List Effect :=
  let c0 := { c with currentVehicle := v.descricaoAplicacao,
                     processed := c.processed + 1 }
  match parseVehicleDescription deaccent v with
  | some (brand, modelName, year) =>
    if isCommercialVehicle brand modelName v.descricaoAplicacao then
      ({ c0 with skipped := c0.skipped + 1 }, [])
    else processRest deaccent env v c0 (some (brand, modelName, year))
  | none => processRest deaccent env v c0 none

/-- All-zero progress counters. -/
def zeroCounters : Counters :=
  { processed := 0, success := 0, failed := 0, skipped := 0,
    exactMatch := 0, fuzzyMatch := 0, noMatch := 0, totalRequests := 0,
    currentVehicle := [], lastError := [] }

/-- The Scania vehicle of the commercial-filter scenario. -/
def scaniaVehicle : Aplicacao :=
  { codigoAplicacao := 2, marca := [], descricaoAplicacao := str "R450",
    motor := [], periodo := str "2020", ano := [],
    fabricante := str "Scania", modelo := str "R450" }

/-- A concrete oracle environment for the witnesses. -/
def sampleEnv : Env :=
  { specRepoPresent := true, falhaRepoPresent := true, dryRun := false,
    existsOutcome := ExistsOutcome.specsAbsent,
    searchOutcome := SearchOutcome.noVehicle,
    specsOutcome := SpecsOutcome.ok [],
    insertOk := fun _ => true }

/-! ## Theorems -/

/-! ### String-level helper lemmas -/

theorem startsWith_iff (sub : List Char) :
    ∀ s : List Char, startsWith s sub = true ↔ ∃ r, s = sub ++ r := by
  induction sub with
  | nil =>
    intro s
    simp [startsWith.eq_def]
  | cons d t ih =>
    intro s
    cases s with
    | nil => simp [startsWith]
    | cons c rest =>
      simp only [startsWith, Bool.and_eq_true, beq_iff_eq, ih rest]
      constructor
      · rintro ⟨h1, r, h2⟩
        exact ⟨r, by simp [h1, h2]⟩
      · rintro ⟨r, h⟩
        simp only [List.cons_append, List.cons.injEq] at h
        exact ⟨h.1, r, h.2⟩

theorem goContains_iff (sub : List Char) :
    ∀ s : List Char, goContains s sub = true ↔ Appears sub s := by
  intro s
  induction s with
  | nil =>
    simp only [goContains, startsWith_iff, Appears]
    constructor
    · rintro ⟨r, h⟩
      exact ⟨[], r, by simpa using h⟩
    · rintro ⟨l, r, h⟩
      refine ⟨r, ?_⟩
      have hl : l = [] := by
        cases l with
        | nil => rfl
        | cons a as => simp at h
      simpa [hl] using h
  | cons c rest ih =>
    simp only [goContains, Bool.or_eq_true, startsWith_iff, ih, Appears]
    constructor
    · rintro (⟨r, h⟩ | ⟨l, r, h⟩)
      · exact ⟨[], r, by simpa using h⟩
      · exact ⟨c :: l, r, by simp [h]⟩
    · rintro ⟨l, r, h⟩
      cases l with
      | nil => exact Or.inl ⟨r, by simpa using h⟩
      | cons a as =>
        simp only [List.cons_append, List.cons.injEq] at h
        exact Or.inr ⟨as, r, h.2⟩

theorem mem_uniqueAux {a : List Char} :
    ∀ (l seen : List (List Char)), a ∈ l → a ∉ seen → a ∈ uniqueAux l seen := by
  intro l
  induction l with
  | nil => intro seen h; simp at h
  | cons s rest ih =>
    intro seen hmem hseen
    by_cases hs : s ∈ seen
    · simp only [uniqueAux, if_pos hs]
      rcases List.mem_cons.mp hmem with h | h
      · exact absurd (h ▸ hs) hseen
      · exact ih seen h hseen
    · simp only [uniqueAux, if_neg hs]
      rcases List.mem_cons.mp hmem with h | h
      · exact h ▸ List.mem_cons_self _ _
      · by_cases has : a = s
        · exact has ▸ List.mem_cons_self _ _
        · exact List.mem_cons_of_mem _
            (ih (s :: seen) h (by simp [has, hseen]))

theorem mem_unique {a : List Char} {l : List (List Char)} (h : a ∈ l) :
    a ∈ unique l :=
  mem_uniqueAux l [] h (by simp)

theorem appears_of_mem_goJoin (sep a : List Char) :
    ∀ l : List (List Char), a ∈ l → Appears a (goJoin sep l) := by
  intro l
  induction l with
  | nil => intro h; simp at h
  | cons s rest ih =>
    intro hmem
    cases rest with
    | nil =>
      have : a = s := by simpa using hmem
      exact ⟨[], [], by simp [goJoin, this]⟩
    | cons t more =>
      rcases List.mem_cons.mp hmem with h | h
      · exact ⟨[], sep ++ goJoin sep (t :: more), by simp [goJoin, h]⟩
      · obtain ⟨l1, r1, hjr⟩ := ih h
        exact ⟨s ++ sep ++ l1, r1, by simp [goJoin, hjr]⟩

theorem appears_ne_nil {a s : List Char} (h : Appears a s) (ha : a ≠ []) :
    s ≠ [] := by
  obtain ⟨l, r, hs⟩ := h
  intro hnil
  rw [hs] at hnil
  rcases List.append_eq_nil.mp hnil with ⟨h1, h2⟩
  exact ha (List.append_eq_nil.mp h1).2

theorem isEmpty_false_of_ne {α : Type} {l : List α} (h : l ≠ []) :
    l.isEmpty = false := by
  cases l with
  | nil => exact absurd rfl h
  | cons a as => rfl

/-! ### Claim C1 — significant-parts type match -/

/-- Claim C1 (refuted; code bug): with candidates [typeA, typeB] and
description "gol 1.6 16v", only typeB's name contains at least 2
significant tokens of the description, yet the resolution returns typeA
with confidence 0.95 — the loop in step 5 of `FindMatch` tests `vt.Name`
but returns `types[0]` instead of `vt`. -/
theorem resolveType_returns_first_not_matching :
    containsAllParts typeB.name (str "gol 1.6 16v") = true ∧
    containsAllParts typeA.name (str "gol 1.6 16v") = false ∧
    resolveType [typeA, typeB] (str "gol 1.6 16v") LlmOutcome.err =
      some { vehicleType := typeA, confidence := 19 / 20,
             matchMethod := str "exact" } ∧
    typeA ≠ typeB := by
  refine ⟨by decide, by decide, rfl, by decide⟩

/-! ### Disambiguator lemmas and claim C4 -/

theorem findTurboConsistent_eq_find (w : Bool) :
    ∀ l : List (List Char),
      findTurboConsistent w l = l.find? (fun o => isTurboGroq o == w) := by
  intro l
  induction l with
  | nil => rfl
  | cons o rest ih =>
    by_cases hp : isTurboGroq o = w
    · rw [findTurboConsistent, if_pos hp,
        List.find?_cons_of_pos _ (by simp [hp])]
    · rw [findTurboConsistent, if_neg hp,
        List.find?_cons_of_neg _ (by simp [hp]), ih]

theorem smartFallback_mem (wegaVehicle : List Char) {opts : List (List Char)}
    (h : opts ≠ []) : smartFallback wegaVehicle opts ∈ opts := by
  unfold smartFallback
  cases hf : findTurboConsistent (isTurboGroq wegaVehicle) opts with
  | some o =>
    rw [findTurboConsistent_eq_find] at hf
    exact List.mem_of_find?_eq_some hf
  | none =>
    cases opts with
    | nil => exact absurd rfl h
    | cons a rest => exact List.mem_cons_self _ _

/-- Claim C4 counterexample: with target "gol 1.0" (no diesel marker),
candidates ["gol 1.6 tdi diesel", "gol 1.0 flex"] and a response carrying
no index digit, the fallback returns the diesel candidate even though a
category-consistent candidate exists — the Groq fallback never inspects
the diesel markers the claim lists. -/
theorem normalizeVehicle_diesel_counterexample :
    normalizeVehicleChoice (str "no match") (str "gol 1.0")
        [str "gol 1.6 tdi diesel", str "gol 1.0 flex"] =
      some (str "gol 1.6 tdi diesel") ∧
    claimCategoryConsistent (str "gol 1.0") (str "gol 1.6 tdi diesel") = false ∧
    claimCategoryConsistent (str "gol 1.0") (str "gol 1.0 flex") = true := by
  decide

/-- Claim C4 (amended): whenever a provider response is obtained for a
non-empty candidate list, the method returns some candidate from the list;
a response yielding 0 or an out-of-range index triggers the deterministic
fallback, which returns the first candidate whose turbo-marker status
(over {turbo, tsi, tfsi, t200, thp, 130cv, 130 cv, 125cv, 125 cv}) agrees
with the target's and otherwise the first candidate; diesel markers play
no role. -/
theorem normalizeVehicle_amended (response wegaVehicle : List Char)
    (opts : List (List Char)) (h : opts ≠ []) :
    (∃ o, normalizeVehicleChoice response wegaVehicle opts = some o ∧ o ∈ opts)
  ∧ ((firstDigit19 (goTrimSpace response) = 0 ∨
        opts.length < firstDigit19 (goTrimSpace response)) →
      2 ≤ opts.length →
      normalizeVehicleChoice response wegaVehicle opts =
        some (smartFallback wegaVehicle opts))
  ∧ smartFallback wegaVehicle opts =
      (opts.find? (fun o => isTurboGroq o == isTurboGroq wegaVehicle)).getD
        (opts.headD []) := by
  refine ⟨?_, ?_, ?_⟩
  · unfold normalizeVehicleChoice
    rw [isEmpty_false_of_ne h]
    simp only [Bool.false_eq_true, if_false]
    by_cases h1 : opts.length = 1
    · rw [if_pos h1]
      cases opts with
      | nil => exact absurd rfl h
      | cons a rest => exact ⟨a, rfl, List.mem_cons_self _ _⟩
    · rw [if_neg h1]
      by_cases hn0 : firstDigit19 (goTrimSpace response) = 0
      · rw [if_pos hn0]
        exact ⟨_, rfl, smartFallback_mem wegaVehicle h⟩
      · rw [if_neg hn0]
        by_cases hgt : opts.length < firstDigit19 (goTrimSpace response)
        · rw [if_pos hgt]
          exact ⟨_, rfl, smartFallback_mem wegaVehicle h⟩
        · rw [if_neg hgt]
          have hlt : firstDigit19 (goTrimSpace response) - 1 < opts.length := by
            omega
          refine ⟨opts.get ⟨firstDigit19 (goTrimSpace response) - 1, hlt⟩,
            ?_, List.get_mem _ _ _⟩
          rw [List.get?_eq_get hlt]
  · intro hbad hlen
    unfold normalizeVehicleChoice
    rw [isEmpty_false_of_ne h]
    simp only [Bool.false_eq_true, if_false]
    rw [if_neg (by omega)]
    rcases hbad with hn0 | hgt
    · rw [if_pos hn0]
    · rw [if_neg (by omega), if_pos hgt]
  · unfold smartFallback
    rw [findTurboConsistent_eq_find]
    cases hf : opts.find? (fun o => isTurboGroq o == isTurboGroq wegaVehicle) with
    | some o => rfl
    | none => rfl

/-- Witness for claim C4 (amended): response "9" is out of range for two
candidates, so the turbo-consistent fallback candidate is returned. -/
theorem normalizeVehicle_amended_witness :
    (∃ o, normalizeVehicleChoice (str "9") (str "gol turbo")
        [str "gol 1.0", str "gol turbo"] = some o ∧
        o ∈ [str "gol 1.0", str "gol turbo"]) ∧
    normalizeVehicleChoice (str "9") (str "gol turbo")
        [str "gol 1.0", str "gol turbo"] =
      some (smartFallback (str "gol turbo") [str "gol 1.0", str "gol turbo"]) := by
  obtain ⟨h1, h2, _⟩ := normalizeVehicle_amended (str "9") (str "gol turbo")
    [str "gol 1.0", str "gol turbo"] (by decide)
  exact ⟨h1, h2 (by decide) (by decide)⟩

/-! ### Spec-parser lemmas -/

theorem emitSpec_true {s : OilSpecification} (ht : s.tipoFluido ≠ [])
    (h : s.viscosidade ≠ [] ∨ s.capacidade ≠ [] ∨ s.recomendacao ≠ []) :
    emitSpec s = true := by
  unfold emitSpec
  rw [Bool.and_eq_true, Bool.or_eq_true, Bool.or_eq_true]
  refine ⟨by rw [isEmpty_false_of_ne ht]; rfl, ?_⟩
  rcases h with h | h | h
  · exact Or.inl (Or.inl (by rw [isEmpty_false_of_ne h]; rfl))
  · exact Or.inl (Or.inr (by rw [isEmpty_false_of_ne h]; rfl))
  · exact Or.inr (by rw [isEmpty_false_of_ne h]; rfl)

theorem buildSpec_mem {comps : List MotulComponent} {c : MotulComponent}
    (hc : c ∈ comps) (he : emitSpec (buildSpec c) = true) :
    buildSpec c ∈ getSpecifications comps :=
  List.mem_filterMap.mpr ⟨c, hc, by simp [he]⟩

/-! ### Claim C2 — viscosity extraction and capacity labels -/

/-- Claim C2 counterexample: the product name "POWER 5W-30" contains the
whitespace token "5W-30" matching `\d+W-?\d+`, but the emitted engine-oil
specification's viscosity field is "POWER" — the code keys on the first
token containing a "W" — and "5W-30" does not appear in it. -/
theorem getSpecifications_power_counterexample :
    (str "5W-30") ∈ goFields (str "POWER 5W-30") ∧
    matchesViscosityPattern (str "5W-30") = true ∧
    getSpecifications [powerComponent] =
      [{ tipoFluido := str "Óleo do Motor", viscosidade := str "POWER",
         capacidade := [], norma := [], recomendacao := str "POWER 5W-30" }] ∧
    ¬ Appears (str "5W-30") (str "POWER") := by
  refine ⟨by decide, by decide, by decide, ?_⟩
  intro h
  have h2 := (goContains_iff (str "5W-30") (str "POWER")).mpr h
  revert h2
  decide

/-- Claim C2 (amended): for every component whose category maps to a
non-empty fluid type, the first whitespace token of a product name that
satisfies the code's W-heuristic — in particular the `\d+W-?\d+` token
whenever it is that first token — appears in the viscosity field of the
component's emitted specification, and every non-empty capacity label
appears in its capacity field with a trailing " L". -/
theorem getSpecifications_amended (comps : List MotulComponent)
    (c : MotulComponent) (hc : c ∈ comps)
    (hfluid : parseFluidType c.categoryName ≠ []) :
    (∀ p, p ∈ componentProductNames c → extractViscosity p ≠ [] →
      buildSpec c ∈ getSpecifications comps ∧
        Appears (extractViscosity p) (buildSpec c).viscosidade)
  ∧ (∀ cap, cap ∈ c.capacities → cap.label ≠ [] →
      buildSpec c ∈ getSpecifications comps ∧
        Appears (cap.label ++ str " L") (buildSpec c).capacidade) := by
  constructor
  · intro p hp hev
    have hrec : ¬ c.recommendations.isEmpty = true := by
      intro hre
      have hnil : c.recommendations = [] := by
        cases hR : c.recommendations with
        | nil => rfl
        | cons _ _ => rw [hR] at hre; exact absurd hre (by simp)
      unfold componentProductNames at hp
      rw [hnil] at hp
      simp at hp
    have hvisc : (buildSpec c).viscosidade =
        goJoin (str ", ") (unique (componentViscosities c)) := by
      show (if c.recommendations.isEmpty then []
        else goJoin (str ", ") (unique (componentViscosities c))) = _
      rw [if_neg hrec]
    have hvm : extractViscosity p ∈ componentViscosities c := by
      unfold componentViscosities
      refine List.mem_filterMap.mpr ⟨p, hp, ?_⟩
      cases hL : extractViscosity p with
      | nil => exact absurd hL hev
      | cons a as => simp [hL]
    have happ : Appears (extractViscosity p) (buildSpec c).viscosidade := by
      rw [hvisc]
      exact appears_of_mem_goJoin _ _ _ (mem_unique hvm)
    have hvne : (buildSpec c).viscosidade ≠ [] := appears_ne_nil happ hev
    exact ⟨buildSpec_mem hc (emitSpec_true hfluid (Or.inl hvne)), happ⟩
  · intro cap hcap hlab
    have hcaps : ¬ c.capacities.isEmpty = true := by
      intro hce
      have hnil : c.capacities = [] := by
        cases hC : c.capacities with
        | nil => rfl
        | cons _ _ => rw [hC] at hce; exact absurd hce (by simp)
      rw [hnil] at hcap
      simp at hcap
    have hfield : (buildSpec c).capacidade =
        goJoin (str ", ") (c.capacities.filterMap (fun k =>
          if k.label.isEmpty then none else some (k.label ++ str " L"))) := by
      show componentCapacityField c = _
      unfold componentCapacityField
      rw [if_neg hcaps]
    have hm2 : (cap.label ++ str " L") ∈ c.capacities.filterMap (fun k =>
        if k.label.isEmpty then none else some (k.label ++ str " L")) := by
      refine List.mem_filterMap.mpr ⟨cap, hcap, ?_⟩
      cases hL : cap.label with
      | nil => exact absurd hL hlab
      | cons a as => simp [hL]
    have happ2 : Appears (cap.label ++ str " L") (buildSpec c).capacidade := by
      rw [hfield]
      exact appears_of_mem_goJoin _ _ _ hm2
    have hcne : (buildSpec c).capacidade ≠ [] := by
      refine appears_ne_nil happ2 ?_
      simp [str]
    exact ⟨buildSpec_mem hc (emitSpec_true hfluid (Or.inr (Or.inl hcne))), happ2⟩

/-- Witness for claim C2 (amended): the component with product
"MOTUL 5W-30" and capacity label "4.3" emits a specification whose
viscosity field contains "5W-30" and whose capacity field contains
"4.3 L". -/
theorem getSpecifications_amended_witness :
    buildSpec motulComponent ∈ getSpecifications [motulComponent] ∧
    Appears (str "5W-30") (buildSpec motulComponent).viscosidade ∧
    Appears (str "4.3" ++ str " L") (buildSpec motulComponent).capacidade := by
  obtain ⟨h1, h2⟩ := getSpecifications_amended [motulComponent] motulComponent
    (by decide) (by decide)
  have hv := h1 (str "MOTUL 5W-30") (by decide) (by decide)
  have hcp := h2 { label := str "4.3" } (by decide) (by decide)
  have he : extractViscosity (str "MOTUL 5W-30") = str "5W-30" := by decide
  exact ⟨hv.1, he ▸ hv.2, hcp.2⟩

/-! ### Retry-loop lemmas -/

theorem backoffSeq_one (k : Nat) (hk : k ≤ 5) :
    backoffSeq 1 k = List.take k [1, 2, 4, 8, 16] := by
  interval_cases k <;> decide

theorem fetchLoop_spec (o : Nat → AttemptOutcome) :
    ∀ fuel attempt backoff, attempt + fuel = maxRetries + 1 → 0 < fuel →
      (1 ≤ (fetchLoop o fuel attempt backoff).attempts
        ∧ (fetchLoop o fuel attempt backoff).attempts ≤ fuel)
      ∧ (fetchLoop o fuel attempt backoff).sleeps =
          backoffSeq backoff ((fetchLoop o fuel attempt backoff).attempts - 1)
      ∧ (∀ i, i + 1 < (fetchLoop o fuel attempt backoff).attempts →
          isRetryable (o (attempt + i)) = true)
      ∧ (∀ code,
          o (attempt + ((fetchLoop o fuel attempt backoff).attempts - 1)) =
            AttemptOutcome.status code → code ≠ 200 →
          (fetchLoop o fuel attempt backoff).result =
            some (FetchError.httpStatus code)) := by
  intro fuel
  induction fuel with
  | zero => intro attempt backoff hinv hpos; exact absurd hpos (by simp)
  | succ fuel ih =>
    intro attempt backoff hinv hpos
    cases ho : o attempt with
    | transportError =>
      by_cases hlt : attempt < maxRetries
      · have hfuel : 0 < fuel := by
          unfold maxRetries at hinv hlt; omega
        obtain ⟨⟨ha1, ha2⟩, hsl, hre, hres⟩ :=
          ih (attempt + 1) (min (backoff * 2) 30) (by omega) hfuel
        set rest := fetchLoop o fuel (attempt + 1) (min (backoff * 2) 30) with hrest
        have heq : fetchLoop o (fuel + 1) attempt backoff =
            { result := rest.result, attempts := rest.attempts + 1,
              sleeps := backoff :: rest.sleeps } := by
          simp only [fetchLoop, ho, if_pos hlt]
        rw [heq]
        refine ⟨⟨by dsimp only; omega, by dsimp only; omega⟩, ?_, ?_, ?_⟩
        · obtain ⟨m, hm⟩ : ∃ m, rest.attempts = m + 1 := ⟨rest.attempts - 1, by omega⟩
          dsimp only
          rw [Nat.add_sub_cancel, hm]
          simp only [backoffSeq]
          rw [hsl, hm]
          simp
        · intro i hi
          dsimp only at hi
          cases i with
          | zero => simp [ho, isRetryable]
          | succ j =>
            have h2 := hre j (by omega)
            have : attempt + (j + 1) = attempt + 1 + j := by omega
            rw [this]
            exact h2
        · intro code hcode h200
          dsimp only at hcode ⊢
          have hidx : attempt + (rest.attempts + 1 - 1) =
              attempt + 1 + (rest.attempts - 1) := by omega
          rw [hidx] at hcode
          exact hres code hcode h200
      · have heq : fetchLoop o (fuel + 1) attempt backoff =
            { result := some (FetchError.transportFailed (attempt + 1)),
              attempts := 1, sleeps := [] } := by
          simp only [fetchLoop, ho, if_neg hlt]
        rw [heq]
        refine ⟨⟨le_refl 1, by dsimp only; omega⟩, by simp [backoffSeq], ?_, ?_⟩
        · intro i hi
          dsimp only at hi
          omega
        · intro code hcode h200
          dsimp only at hcode
          simp only [Nat.sub_self, Nat.add_zero] at hcode
          rw [ho] at hcode
          exact absurd hcode (by simp)
    | status code0 =>
      by_cases h200 : code0 = 200
      · have heq : fetchLoop o (fuel + 1) attempt backoff =
            { result := none, attempts := 1, sleeps := [] } := by
          simp only [fetchLoop, ho, if_pos h200]
        rw [heq]
        refine ⟨⟨le_refl 1, by dsimp only; omega⟩, by simp [backoffSeq], ?_, ?_⟩
        · intro i hi
          dsimp only at hi
          omega
        · intro code hcode hne
          dsimp only at hcode
          simp only [Nat.sub_self, Nat.add_zero] at hcode
          rw [ho] at hcode
          injection hcode with h
          subst h
          exact absurd h200 hne
      · by_cases hretry : (code0 = 429 ∨ 500 ≤ code0) ∧ attempt < maxRetries
        · have hfuel : 0 < fuel := by
            unfold maxRetries at hinv hretry; omega
          obtain ⟨⟨ha1, ha2⟩, hsl, hre, hres⟩ :=
            ih (attempt + 1) (min (backoff * 2) 30) (by omega) hfuel
          set rest := fetchLoop o fuel (attempt + 1) (min (backoff * 2) 30) with hrest
          have heq : fetchLoop o (fuel + 1) attempt backoff =
              { result := rest.result, attempts := rest.attempts + 1,
                sleeps := backoff :: rest.sleeps } := by
            simp only [fetchLoop, ho, if_neg h200, if_pos hretry]
          rw [heq]
          refine ⟨⟨by dsimp only; omega, by dsimp only; omega⟩, ?_, ?_, ?_⟩
          · obtain ⟨m, hm⟩ : ∃ m, rest.attempts = m + 1 :=
              ⟨rest.attempts - 1, by omega⟩
            dsimp only
            rw [Nat.add_sub_cancel, hm]
            simp only [backoffSeq]
            rw [hsl, hm]
            simp
          · intro i hi
            dsimp only at hi
            cases i with
            | zero =>
              simp only [Nat.add_zero, ho, isRetryable, if_neg h200]
              exact decide_eq_true hretry.1
            | succ j =>
              have h2 := hre j (by omega)
              have : attempt + (j + 1) = attempt + 1 + j := by omega
              rw [this]
              exact h2
          · intro code hcode hne
            dsimp only at hcode ⊢
            have hidx : attempt + (rest.attempts + 1 - 1) =
                attempt + 1 + (rest.attempts - 1) := by omega
            rw [hidx] at hcode
            exact hres code hcode hne
        · have heq : fetchLoop o (fuel + 1) attempt backoff =
              { result := some (FetchError.httpStatus code0),
                attempts := 1, sleeps := [] } := by
            simp only [fetchLoop, ho, if_neg h200, if_neg hretry]
          rw [heq]
          refine ⟨⟨le_refl 1, by dsimp only; omega⟩, by simp [backoffSeq], ?_, ?_⟩
          · intro i hi
            dsimp only at hi
            omega
          · intro code hcode hne
            dsimp only at hcode ⊢
            simp only [Nat.sub_self, Nat.add_zero] at hcode
            rw [ho] at hcode
            injection hcode with h
            subst h
            rfl

/-! ### Claim C3 — advisor client retry policy -/

/-- Claim C3 counterexample: with every attempt answering HTTP 501 — a
non-2xx status outside {429, 500, 502, 503}, which the claim says ends the
request immediately — the client performs 6 attempts (not at most 5),
sleeping 1, 2, 4, 8 and 16 seconds in between, before surfacing the 501. -/
theorem fetchWithRetry_501_counterexample :
    (fetchWithRetry (fun _ => AttemptOutcome.status 501)).attempts = 6 ∧
    (fetchWithRetry (fun _ => AttemptOutcome.status 501)).sleeps =
      [1, 2, 4, 8, 16] ∧
    (fetchWithRetry (fun _ => AttemptOutcome.status 501)).result =
      some (FetchError.httpStatus 501) ∧
    ¬ (501 = 429 ∨ 501 = 500 ∨ 501 = 502 ∨ 501 = 503) := by
  decide

/-- Claim C3 (amended): every request is attempted at least once and at
most 6 times (one initial try plus `MaxRetries = 5` retries); every
non-final attempt ended in a transport error or in HTTP 429 or a status
≥ 500; the sleeps between consecutive attempts start at 1 s and double
each time, capped at 30 s (concretely a prefix of 1, 2, 4, 8, 16); and a
non-200 response on the final attempt is surfaced to the caller as that
status error. -/
theorem fetchWithRetry_amended (outcomes : Nat → AttemptOutcome) :
    (1 ≤ (fetchWithRetry outcomes).attempts
      ∧ (fetchWithRetry outcomes).attempts ≤ 6)
  ∧ (fetchWithRetry outcomes).sleeps =
      List.take ((fetchWithRetry outcomes).attempts - 1) [1, 2, 4, 8, 16]
  ∧ (∀ i, i + 1 < (fetchWithRetry outcomes).attempts →
      isRetryable (outcomes i) = true)
  ∧ (∀ code,
      outcomes ((fetchWithRetry outcomes).attempts - 1) =
        AttemptOutcome.status code → code ≠ 200 →
      (fetchWithRetry outcomes).result = some (FetchError.httpStatus code)) := by
  have hW : fetchWithRetry outcomes = fetchLoop outcomes 6 0 1 := rfl
  obtain ⟨⟨h1, h2⟩, hsl, hre, hres⟩ :=
    fetchLoop_spec outcomes 6 0 1 rfl (by omega)
  rw [hW]
  refine ⟨⟨h1, h2⟩, ?_, ?_, ?_⟩
  · rw [hsl, backoffSeq_one _ (by omega)]
  · intro i hi
    have := hre i hi
    simpa using this
  · intro code hcode hne
    refine hres code ?_ hne
    simpa using hcode

/-- Witness for claim C3 (amended): a single 404 answer is surfaced
immediately after exactly one attempt. -/
theorem fetchWithRetry_amended_witness :
    (fetchWithRetry (fun _ => AttemptOutcome.status 404)).result =
      some (FetchError.httpStatus 404) ∧
    (fetchWithRetry (fun _ => AttemptOutcome.status 404)).attempts ≤ 6 := by
  obtain ⟨⟨_, h2⟩, _, _, h5⟩ :=
    fetchWithRetry_amended (fun _ => AttemptOutcome.status 404)
  exact ⟨h5 404 rfl (by decide), h2⟩

/-! ### Claim C5 — rate limiter handoff -/

/-- Claim C5 counterexample: after `Stop` closes the `requests` channel, a
`Wait` whose context is live and with no sender present completes
successfully at once — the caller proceeds as if it had obtained a token,
refuting "after Stop no subsequent Wait call ever obtains a token". -/
theorem wait_after_stop_succeeds :
    waitBehavior true false false = WaitBehavior.tokenOk := by decide

/-- Claim C5 (amended): a token ticked while no receiver waits is
discarded (non-buffering handoff, no burst); `Wait` can return an error
only when its context is cancelled; and after `Stop` the closed channel
makes every `Wait` complete immediately — with a live context it returns
success — so `Stop` disables rate limiting rather than cutting callers
off from tokens. -/
theorem rateLimiter_amended :
    tickHandoff false = TokenFate.discarded
  ∧ (∀ closed sender,
      waitBehavior closed false sender ≠ WaitBehavior.cancelErr
        ∧ waitBehavior closed false sender ≠ WaitBehavior.raceNondet)
  ∧ (∀ cancelled sender,
      waitBehavior true cancelled sender ≠ WaitBehavior.blocks)
  ∧ waitBehavior true false false = WaitBehavior.tokenOk := by
  decide

/-- Witness for claim C5 (amended) at concrete channel states. -/
theorem rateLimiter_amended_witness :
    waitBehavior false false false ≠ WaitBehavior.cancelErr ∧
    waitBehavior true true false ≠ WaitBehavior.blocks := by
  obtain ⟨_, h2, h3, _⟩ := rateLimiter_amended
  exact ⟨(h2 false false).1, h3 true false⟩

/-! ### Claim C6 — failure-record upsert semantics -/

/-- Claim C6: for every vehicle id, the first failure Upsert creates a
record with attempts = 1 and every subsequent Upsert increments attempts by
exactly 1; the stored next-attempt timestamp is now + 1 minute for kind
rate-limit, now + 5 minutes for network, NULL for model-not-found and
now + 30 minutes for every other kind; and every Upsert sets
resolved = false and resolved-at = NULL. -/
theorem scraperFalhaUpsert_claim (table : FailureTable) (now : Nat) (i : Int)
    (kind msg : List Char) :
    (table i = none →
      ∃ r, scraperFalhaUpsert table now i kind msg i = some r ∧
        r.tentativas = 1 ∧ r.resolvido = false ∧ r.resolvidoEm = none)
  ∧ (∀ old, table i = some old →
      ∃ r, scraperFalhaUpsert table now i kind msg i = some r ∧
        r.tentativas = old.tentativas + 1 ∧ r.resolvido = false ∧
        r.resolvidoEm = none)
  ∧ (kind = str "rate_limit" →
      ∀ r, scraperFalhaUpsert table now i kind msg i = some r →
        r.proximaTentativa = some (now + 1))
  ∧ (kind = str "rede" →
      ∀ r, scraperFalhaUpsert table now i kind msg i = some r →
        r.proximaTentativa = some (now + 5))
  ∧ (kind = str "modelo_nao_encontrado" →
      ∀ r, scraperFalhaUpsert table now i kind msg i = some r →
        r.proximaTentativa = none)
  ∧ (kind ≠ str "rate_limit" → kind ≠ str "rede" →
      kind ≠ str "modelo_nao_encontrado" →
      ∀ r, scraperFalhaUpsert table now i kind msg i = some r →
        r.proximaTentativa = some (now + 30)) := by
  refine ⟨?_, ?_, ?_, ?_, ?_, ?_⟩
  · intro h
    exact ⟨{ codigoAplicacao := i, tipoErro := kind, mensagemErro := msg,
             tentativas := 1, ultimaTentativa := now,
             proximaTentativa := upsertProximaTentativa now kind,
             resolvido := false, resolvidoEm := none, criadoEm := now },
           by simp [scraperFalhaUpsert, h], rfl, rfl, rfl⟩
  · intro old h
    exact ⟨{ codigoAplicacao := i, tipoErro := kind, mensagemErro := msg,
             tentativas := old.tentativas + 1, ultimaTentativa := now,
             proximaTentativa := upsertProximaTentativa now kind,
             resolvido := false, resolvidoEm := none, criadoEm := old.criadoEm },
           by simp [scraperFalhaUpsert, h], rfl, rfl, rfl⟩
  · intro hk r hr
    subst hk
    have hup : upsertProximaTentativa now (str "rate_limit") = some (now + 1) := by
      unfold upsertProximaTentativa
      rw [if_pos rfl]
    cases htab : table i <;>
      simp [scraperFalhaUpsert, htab, hup] at hr <;>
      simp [← hr]
  · intro hk r hr
    subst hk
    have hup : upsertProximaTentativa now (str "rede") = some (now + 5) := by
      unfold upsertProximaTentativa
      rw [if_neg (by decide), if_pos rfl]
    cases htab : table i <;>
      simp [scraperFalhaUpsert, htab, hup] at hr <;>
      simp [← hr]
  · intro hk r hr
    subst hk
    have hup :
        upsertProximaTentativa now (str "modelo_nao_encontrado") = none := by
      unfold upsertProximaTentativa
      rw [if_neg (by decide), if_neg (by decide), if_pos rfl]
    cases htab : table i <;>
      simp [scraperFalhaUpsert, htab, hup] at hr <;>
      simp [← hr]
  · intro h1 h2 h3 r hr
    have hup : upsertProximaTentativa now kind = some (now + 30) := by
      unfold upsertProximaTentativa
      rw [if_neg h1, if_neg h2, if_neg h3]
    cases htab : table i <;>
      simp [scraperFalhaUpsert, htab, hup] at hr <;>
      simp [← hr]

/-- Witness for claim C6: on the empty table, an Upsert with kind
rate-limit at time 100 stores attempts = 1, resolved = false,
resolved-at = NULL and next-attempt = 101. -/
theorem scraperFalhaUpsert_claim_witness :
    ∃ r, scraperFalhaUpsert (fun _ => none) 100 7 (str "rate_limit")
        (str "x") 7 = some r ∧
      r.tentativas = 1 ∧ r.resolvido = false ∧ r.resolvidoEm = none ∧
      r.proximaTentativa = some 101 := by
  obtain ⟨h1, _, hrl, _⟩ :=
    scraperFalhaUpsert_claim (fun _ => none) 100 7 (str "rate_limit") (str "x")
  obtain ⟨r, hr, ht, hres, hrem⟩ := h1 rfl
  exact ⟨r, hr, ht, hres, hrem, hrl rfl r hr⟩

/-! ### Claim C7 — NULL next-attempt rows and the pending-retries query -/

/-- Claim C7 (refuted; code bug): the row stored by Upsert for kind
model-not-found has NULL next-attempt and is claimed never to be returned
by the pending-retries retrieval, yet `GetPendingRetries` — whose SQL
condition reads `"ProximaTentativa" IS NULL OR "ProximaTentativa" <= NOW()`
— does return it. -/
theorem getPendingRetries_returns_null_proxima :
    scraperFalhaUpsert (fun _ => none) 50 42 (str "modelo_nao_encontrado")
        (str "model not found") 42 = some modelNotFoundRow ∧
    modelNotFoundRow.proximaTentativa = none ∧
    modelNotFoundRow.resolvido = false ∧
    getPendingRetries 60 10 [modelNotFoundRow] = [modelNotFoundRow] := by
  refine ⟨?_, rfl, rfl, ?_⟩ <;> decide

/-! ### Claim C8 — catalog cache persistence -/

/-- Claim C8 counterexample: at a concrete filename and document the save
trace of `CatalogLoader.saveToFile` is not a write-temp-then-rename pair. -/
theorem saveToFile_no_temp_rename :
    ¬ WriteTempThenRename
        (saveToFileTrace (fun d : List Char => d) (str "motul_catalog.json")
          (str "catalogdata")) := by
  rintro ⟨tmp, data, target, hne, htrace⟩
  simp [saveToFileTrace] at htrace

/-- Claim C8 (amended): `saveToFile` persists the catalog with a single
direct whole-file write (`os.WriteFile`) to the target path and performs
no rename; the write-temp-then-rename discipline the spec describes is
absent. -/
theorem saveToFileTrace_direct_write {α : Type} (marshal : α → List Char)
    (filename : List Char) (catalog : α) :
    saveToFileTrace marshal filename catalog =
      [FsOp.write filename (marshal catalog)] ∧
    ¬ WriteTempThenRename (saveToFileTrace marshal filename catalog) := by
  refine ⟨rfl, ?_⟩
  rintro ⟨tmp, data, target, hne, htrace⟩
  simp [saveToFileTrace] at htrace

/-- Witness for claim C8 (amended form) at a concrete filename and
document. -/
theorem saveToFileTrace_direct_write_witness :
    saveToFileTrace (fun d : List Char => d) (str "catalog_cache.json")
        (str "treejson") =
      [FsOp.write (str "catalog_cache.json") (str "treejson")] ∧
    ¬ WriteTempThenRename
        (saveToFileTrace (fun d : List Char => d) (str "catalog_cache.json")
          (str "treejson")) :=
  saveToFileTrace_direct_write (fun d : List Char => d)
    (str "catalog_cache.json") (str "treejson")

/-! ### Claims C9 and C10 — pipeline filter and counter invariant -/

/-- Claim C9: a vehicle whose parsed brand or model/description triggers
the commercial filter is skipped — processed and skipped are each
incremented once — and the pipeline returns before issuing any outbound
call (no Advisor search, no Disambiguator, no Oil-Spec Store access, no
failure upsert). -/
theorem processVehicle_commercial_skip (deaccent : List Char → List Char)
    (env : Env) (v : Aplicacao) (c : Counters)
    (brand modelName : List Char) (year : Nat)
    (hparse : parseVehicleDescription deaccent v =
      some (brand, modelName, year))
    (hcomm : isCommercialVehicle brand modelName v.descricaoAplicacao = true) :
    processVehicle deaccent env v c =
      ({ c with currentVehicle := v.descricaoAplicacao,
                processed := c.processed + 1,
                skipped := c.skipped + 1 }, []) := by
  unfold processVehicle
  rw [hparse]
  simp [hcomm]

/-- Witness for claim C9: the Scania vehicle is skipped with no outbound
call under a fully wired environment. -/
theorem processVehicle_commercial_skip_witness :
    processVehicle id sampleEnv scaniaVehicle zeroCounters =
      ({ zeroCounters with currentVehicle := str "R450",
                           processed := 1, skipped := 1 }, []) :=
  processVehicle_commercial_skip id sampleEnv scaniaVehicle zeroCounters
    (str "Scania") (str "R450") 2020 (by decide) (by decide)

theorem processRest_counters (deaccent : List Char → List Char) (env : Env)
    (v : Aplicacao) (c : Counters)
    (parsed : Option (List Char × List Char × Nat)) :
    (processRest deaccent env v c parsed).1.processed = c.processed
  ∧ (processRest deaccent env v c parsed).1.success
      + (processRest deaccent env v c parsed).1.failed
      + (processRest deaccent env v c parsed).1.skipped
      + (processRest deaccent env v c parsed).1.noMatch
    = c.success + c.failed + c.skipped + c.noMatch + 1 := by
  unfold processRest
  repeat' split
  all_goals constructor
  all_goals first
    | (dsimp only; omega)
    | dsimp only

/-- Claim C10: every completed `processVehicle` call increments processed
exactly once and the sum success + failed + skipped + no-match exactly
once, so the invariant processed = success + failed + skipped + no-match
is preserved (the exact/fuzzy match buckets are counted separately). -/
theorem processVehicle_counters (deaccent : List Char → List Char)
    (env : Env) (v : Aplicacao) (c : Counters) :
    (processVehicle deaccent env v c).1.processed = c.processed + 1
  ∧ (processVehicle deaccent env v c).1.success
      + (processVehicle deaccent env v c).1.failed
      + (processVehicle deaccent env v c).1.skipped
      + (processVehicle deaccent env v c).1.noMatch
    = c.success + c.failed + c.skipped + c.noMatch + 1
  ∧ (c.processed = c.success + c.failed + c.skipped + c.noMatch →
      (processVehicle deaccent env v c).1.processed =
        (processVehicle deaccent env v c).1.success
          + (processVehicle deaccent env v c).1.failed
          + (processVehicle deaccent env v c).1.skipped
          + (processVehicle deaccent env v c).1.noMatch) := by
  have key : (processVehicle deaccent env v c).1.processed = c.processed + 1
      ∧ (processVehicle deaccent env v c).1.success
          + (processVehicle deaccent env v c).1.failed
          + (processVehicle deaccent env v c).1.skipped
          + (processVehicle deaccent env v c).1.noMatch
        = c.success + c.failed + c.skipped + c.noMatch + 1 := by
    unfold processVehicle
    cases hpv : parseVehicleDescription deaccent v with
    | none =>
      obtain ⟨h1, h2⟩ := processRest_counters deaccent env v
        { c with currentVehicle := v.descricaoAplicacao,
                 processed := c.processed + 1 } none
      dsimp only at h1 h2 ⊢
      constructor <;> omega
    | some parsed =>
      obtain ⟨brand, modelName, year⟩ := parsed
      dsimp only
      split
      · constructor
        all_goals first
          | (dsimp only; omega)
          | dsimp only
      · obtain ⟨h1, h2⟩ := processRest_counters deaccent env v
          { c with currentVehicle := v.descricaoAplicacao,
                   processed := c.processed + 1 }
          (some (brand, modelName, year))
        dsimp only at h1 h2 ⊢
        constructor <;> omega
  exact ⟨key.1, key.2, fun hinv => by omega⟩

/-- Witness for claim C10: the invariant is preserved for the sample
vehicle, environment and all-zero counters. -/
theorem processVehicle_counters_witness :
    (processVehicle id sampleEnv scaniaVehicle zeroCounters).1.processed =
      (processVehicle id sampleEnv scaniaVehicle zeroCounters).1.success
        + (processVehicle id sampleEnv scaniaVehicle zeroCounters).1.failed
        + (processVehicle id sampleEnv scaniaVehicle zeroCounters).1.skipped
        + (processVehicle id sampleEnv scaniaVehicle zeroCounters).1.noMatch := by
  obtain ⟨h1, h2, h3⟩ :=
    processVehicle_counters id sampleEnv scaniaVehicle zeroCounters
  exact h3 rfl

end Wega
